import Mathlib

/-!
Verification of the extraction/download service implemented in src/app.py.

The file is a shallow embedding of the two Flask request handlers
(get_video_info and download_video), the user-agent rotator, the format
filtering loop, and the filename finalization chain
(prepare_filename, os.path.splitext, os.path.basename,
werkzeug.utils.secure_filename), together with theorems settling the
frozen behavioral claims about the service.

Conventions of the embedding:
- Python dictionaries reached only through dict.get are modelled as
  structures of Option-typed fields; an absent key and a key bound to
  None both become none, which matches dict.get semantics exactly.
- The external yt-dlp engine is a parameter: a function from the
  requested URL to an EngineResult.  Each handler records the engine
  invocations it performs (url, whether the call was made in download
  mode, and the options dictionary it passed) so that claims about
  attempt counts, retries and download side effects are statable.
- POSIX path semantics are used (os.sep is the slash, os.path.altsep is
  None, os.name is not nt), matching the deployment the code targets.
-/

namespace YoutubApp

/-- Python truthiness of an optional string: None and the empty string are
falsy, every other string is truthy.  Models `if not url` and the
`fmt.get(key)` truthiness tests. -/
def pyTruthy : Option String → Bool
  | none => false
  | some s => !(s == "")

/-- The fixed pool of user-agent strings in get_user_agent (src/app.py
lines 32-36). -/
def agents : List String :=
  ["Mozilla/5.0 (Windows NT 10.0; Win64; x64) AppleWebKit/537.36 (KHTML, like Gecko) Chrome/91.0.4472.124 Safari/537.36",
   "Mozilla/5.0 (Macintosh; Intel Mac OS X 10_15_7) AppleWebKit/537.36 (KHTML, like Gecko) Chrome/91.0.4472.124 Safari/537.36",
   "Mozilla/5.0 (Windows NT 10.0; Win64; x64; rv:89.0) Gecko/20100101 Firefox/89.0"]

/-- get_user_agent (src/app.py line 37): indexes the pool with the integer
clock timestamp reduced modulo the pool length.  The timestamp is modelled
as an arbitrary integer; Python integer remainder with a positive modulus
agrees with Int.emod, which is the % used here. -/
def get_user_agent (t : Int) : String :=
  agents.getD (t % (agents.length : Int)).toNat ""

/-- The known container extensions (src/app.py line 24). -/
def ALLOWED_EXTENSIONS : List String := ["mp4", "webm", "mp3", "m4a"]

/-- One raw format record, restricted to the keys the code reads or
re-emits.  Records are only accessed through dict.get, so an absent key is
modelled as none. -/
structure FmtDict where
  format_id : Option String := none
  ext : Option String := none
  resolution : Option String := none
  filesize : Option Nat := none
  url : Option String := none
  format_note : Option String := none
deriving DecidableEq

/-- The metadata dictionary returned by the engine for a single extraction,
restricted to the keys the handlers read.  hasEntries models the presence
of an entries key (a playlist-shaped result); formats = none models a
dictionary without a formats key; ext is the engine-reported container
extension used by template instantiation. -/
structure Info where
  hasEntries : Bool := false
  title : Option String := none
  duration : Option Nat := none
  thumbnail : Option String := none
  uploader : Option String := none
  view_count : Option Nat := none
  webpage_url : Option String := none
  formats : Option (List FmtDict) := none
  ext : Option String := none
deriving DecidableEq

/-- The possible outcomes of one engine invocation, as the handlers
distinguish them: a metadata dictionary, a None result, or one of the
three exception classes caught at src/app.py lines 103-111 and 191-199. -/
inductive EngineResult where
  | ok (info : Info)
  | noInfo
  | downloadError (msg : String)
  | extractorError (msg : String)
  | otherError (msg : String)

/-- One post-processing directive (src/app.py lines 151-155). -/
structure Postprocessor where
  key : String
  preferredcodec : String
  preferredquality : String
deriving DecidableEq

/-- The options dictionary passed to the engine, restricted to the fields
the claims are about. -/
structure YdlOpts where
  outtmpl : Option String := none
  restrictfilenames : Bool := false
  socket_timeout : Nat := 0
  retries : Nat := 0
  format : Option String := none
  postprocessors : List Postprocessor := []
  skip : List String := []
  user_agent : String := ""
deriving DecidableEq

/-- A record of one invocation of the external engine: the url, whether
extract_info was called with download=True, and the options it was given. -/
structure EngineCall where
  url : String
  download : Bool
  opts : YdlOpts
deriving DecidableEq

/-- JSON values, for response bodies. -/
inductive JVal where
  | jnull
  | jstr (s : String)
  | jnat (n : Nat)
  | jlist (l : List JVal)
  | jobj (fields : List (String × JVal))

/-- An HTTP response: status code and JSON object body, keys in insertion
order. -/
structure HttpResponse where
  status : Nat
  body : List (String × JVal)

/-- JSON serialization of an optional string, as jsonify renders it. -/
def jOptStr : Option String → JVal
  | none => JVal.jnull
  | some s => JVal.jstr s

/-- JSON serialization of an optional number, as jsonify renders it. -/
def jOptNat : Option Nat → JVal
  | none => JVal.jnull
  | some n => JVal.jnat n

/-- Look a key up in a JSON object body. -/
def jlookup (k : String) (b : List (String × JVal)) : Option JVal :=
  (b.find? (fun p => p.1 == k)).map (fun p => p.2)

/-- The keep condition of the format loop (src/app.py line 91): both the
ext and the url values must be truthy. -/
def usableFmt (f : FmtDict) : Bool :=
  pyTruthy f.ext && pyTruthy f.url

/-- The projection the format loop applies to a kept record (src/app.py
lines 92-98): a new dictionary holding only the five public keys.  The
url key is not among them, so in the projected record url is none. -/
def projectFmt (f : FmtDict) : FmtDict :=
  { format_id := f.format_id, ext := f.ext, resolution := f.resolution,
    filesize := f.filesize, url := none, format_note := f.format_note }

/-- The format filtering loop of get_video_info (src/app.py lines 88-98):
appends the projection of every record whose ext and url are truthy, in
input order. -/
def formatFilter (l : List FmtDict) : List FmtDict :=
  (l.filter usableFmt).map projectFmt

/-- Serialization of a projected format record into the response body. -/
def fmtToJVal (f : FmtDict) : JVal :=
  JVal.jobj [("format_id", jOptStr f.format_id), ("ext", jOptStr f.ext),
    ("resolution", jOptStr f.resolution), ("filesize", jOptNat f.filesize),
    ("format_note", jOptStr f.format_note)]

/-- os.path.basename on POSIX: the part of the path after the last slash. -/
def basename (s : String) : String :=
  String.mk ((s.data.reverse.takeWhile (fun c => c ≠ '/')).reverse)

/-- Index of the last occurrence of a character in a list, when present
(Python str.rfind restricted to single characters). -/
def lastIdxOf (c : Char) (l : List Char) : Option Nat :=
  if c ∈ l then some (l.length - 1 - l.reverse.indexOf c) else none

/-- os.path.splitext on POSIX, on character lists.  The extension starts at
the last dot, provided that dot lies after the last slash and that some
character strictly between the last slash and that dot is not a dot
(so a basename consisting only of leading dots has no extension). -/
def splitextL (l : List Char) : List Char × List Char :=
  match lastIdxOf '.' l with
  | none => (l, [])
  | some d =>
    let start := match lastIdxOf '/' l with
      | none => 0
      | some k => k + 1
    if start ≤ d ∧ ((l.drop start).take (d - start)).any (fun c => c ≠ '.') then
      (l.take d, l.drop d)
    else (l, [])

/-- os.path.splitext on strings. -/
def splitext (s : String) : String × String :=
  (String.mk (splitextL s.data).1, String.mk (splitextL s.data).2)

/-- Python str.split() separators that survive the ASCII-only step:
the ASCII whitespace characters Python treats as split points. -/
def pyWsChar (c : Char) : Bool :=
  decide (c ∈ [' ', '\t', '\n', '\r', '\x0b', '\x0c', '\x1c', '\x1d', '\x1e', '\x1f'])

/-- Helper for Python str.split() with no separator: accumulates the
current word (reversed) and emits maximal nonempty words. -/
def wsSplitAux : List Char → List Char → List (List Char)
  | [], acc => if acc.isEmpty then [] else [acc.reverse]
  | c :: cs, acc =>
    if pyWsChar c then
      if acc.isEmpty then wsSplitAux cs [] else acc.reverse :: wsSplitAux cs []
    else wsSplitAux cs (c :: acc)

/-- Python str.split() with no separator: maximal runs of non-whitespace. -/
def pySplitWs (l : List Char) : List (List Char) :=
  wsSplitAux l []

/-- The characters the werkzeug filename regular expression keeps: ASCII
letters, digits, underscore, dot and hyphen. -/
def safeChars : List Char :=
  "ABCDEFGHIJKLMNOPQRSTUVWXYZabcdefghijklmnopqrstuvwxyz0123456789_.-".data

/-- Whether a character survives the whitelist substitution. -/
def allowedChar (c : Char) : Bool :=
  decide (c ∈ safeChars)

/-- Whether a character is stripped from the ends by strip of dot and
underscore. -/
def stripChar (c : Char) : Bool :=
  decide (c = '.' ∨ c = '_')

/-- Python strip with the two characters dot and underscore: removes them
from both ends. -/
def stripDotUnd (l : List Char) : List Char :=
  ((l.dropWhile stripChar).reverse.dropWhile stripChar).reverse

/-- werkzeug.utils.secure_filename on POSIX, step by step:
1. NFKD-normalize then encode to ASCII ignoring errors — modelled as
   dropping the non-ASCII characters.  (Normalization can instead
   contribute ASCII decompositions of some characters; every character it
   can contribute is ASCII and is subject to the later whitelist, so the
   output alphabet is unchanged by this simplification.)
2. Replace os.sep (the slash; os.path.altsep is None) with a space.
3. Split on whitespace and join the words with underscores.
4. Delete every character outside the whitelist A-Z a-z 0-9 underscore
   dot hyphen.
5. Strip leading and trailing dots and underscores.
The Windows device-name branch is skipped since os.name is not nt. -/
def secure_filename (s : String) : String :=
  String.mk (stripDotUnd
    ((List.intercalate ['_']
        (pySplitWs ((s.data.filter (fun c => c.toNat < 128)).map
          (fun c => if c = '/' then ' ' else c)))).filter allowedChar))

/-- allowed_file (src/app.py lines 27-28): requires a dot and that the part
after the last dot, lowercased, is a known extension.  (Defined by the
source but never called by either handler.) -/
def allowed_file (filename : String) : Bool :=
  filename.data.contains '.' &&
    (match lastIdxOf '.' filename.data with
     | some d => ALLOWED_EXTENSIONS.contains (String.mk (filename.data.drop (d + 1))).toLower
     | none => false)

/-- The downloads directory (src/app.py line 23). -/
def DOWNLOAD_FOLDER : String := "downloads"

/-- The output template of a download request (src/app.py line 132): the
downloads folder joined with the fresh uniqueness token, an underscore, and
the title and ext placeholders. -/
def outtmplFor (token : String) : String :=
  DOWNLOAD_FOLDER ++ "/" ++ token ++ "_%(title)s.%(ext)s"

/-- Modelled engine behavior: prepare_filename instantiates the output
template by substituting the engine-reported title and ext (the engine
renders a missing field as NA). -/
def prepFilename (token : String) (info : Info) : String :=
  DOWNLOAD_FOLDER ++ "/" ++ token ++ "_" ++ info.title.getD "NA" ++ "." ++ info.ext.getD "NA"

/-- The filename finalization of download_video (src/app.py lines
172-176): the prepared filename, with the extension replaced by .mp3 when
audio_only is set and the result is not playlist-shaped. -/
def finalizedFilename (audio_only : Bool) (token : String) (info : Info) : String :=
  if audio_only && !info.hasEntries then
    (splitext (prepFilename token info)).1 ++ ".mp3"
  else prepFilename token info

/-- The public filename of download_video (src/app.py line 179):
secure_filename applied to the basename of the finalized on-disk name. -/
def publicFilename (audio_only : Bool) (token : String) (info : Info) : String :=
  secure_filename (basename (finalizedFilename audio_only token info))

/-- The options dictionary of get_video_info (src/app.py lines 48-62),
restricted to the modelled fields. -/
def infoOpts (ua : String) : YdlOpts :=
  { socket_timeout := 10, retries := 3,
    skip := ["hls", "dash", "translated_subs"], user_agent := ua }

/-- The options dictionary of download_video (src/app.py lines 131-158):
the base dictionary, then either the audio format with its post-processing
directive or the caller-chosen format selector. -/
def downloadOpts (token ua format_type : String) (audio_only : Bool) : YdlOpts :=
  let base : YdlOpts :=
    { outtmpl := some (outtmplFor token), restrictfilenames := true,
      socket_timeout := 30, retries := 3,
      skip := ["hls", "dash", "translated_subs"], user_agent := ua }
  if audio_only then
    { base with
      format := some "bestaudio/best",
      postprocessors := [{ key := "FFmpegExtractAudio", preferredcodec := "mp3", preferredquality := "192" }] }
  else { base with format := some format_type }

/-- The info endpoint handler get_video_info (src/app.py lines 39-111).
Inputs: the clock timestamp, the url query parameter (none when absent)
and the engine.  Output: the HTTP response and the list of engine
invocations performed. -/
def get_video_info (t : Int) (url : Option String) (engine : String → EngineResult) :
    HttpResponse × List EngineCall :=
  if pyTruthy url = false then
    ({ status := 400, body := [("error", JVal.jstr "No URL provided")] }, [])
  else
    let u := url.getD ""
    let call : EngineCall := { url := u, download := false, opts := infoOpts (get_user_agent t) }
    match engine u with
    | EngineResult.noInfo =>
      ({ status := 400,
         body := [("error", JVal.jstr "Failed to extract video information")] }, [call])
    | EngineResult.ok info =>
      if info.hasEntries then
        ({ status := 400,
           body := [("error", JVal.jstr "Playlists are not supported, please provide a single video URL")] },
         [call])
      else
        ({ status := 200,
           body := [("title", jOptStr info.title), ("duration", jOptNat info.duration),
             ("thumbnail", jOptStr info.thumbnail), ("uploader", jOptStr info.uploader),
             ("view_count", jOptNat info.view_count), ("webpage_url", jOptStr info.webpage_url),
             ("available_formats",
               JVal.jlist (match info.formats with
                 | none => []
                 | some fs => (formatFilter fs).map fmtToJVal))] },
         [call])
    | EngineResult.downloadError _ =>
      ({ status := 400,
         body := [("error", JVal.jstr "Failed to retrieve video information (DownloadError)")] }, [call])
    | EngineResult.extractorError _ =>
      ({ status := 400,
         body := [("error", JVal.jstr "Failed to retrieve video information (ExtractorError)")] }, [call])
    | EngineResult.otherError _ =>
      ({ status := 500,
         body := [("error", JVal.jstr "An unexpected error occurred while processing your request")] }, [call])

/-- The download endpoint handler download_video (src/app.py lines
113-199).  Inputs: whether the body parsed as JSON, the three body
parameters (none when absent), the fresh uniqueness token drawn at line
132, the clock timestamp, and the engine.  Output: the HTTP response and
the list of engine invocations performed; the single invocation is made
with download set, mirroring extract_info(url, download=True). -/
def download_video (isJson : Bool) (url : Option String) (format_param : Option String)
    (audio_only_param : Option Bool) (token : String) (t : Int)
    (engine : String → EngineResult) : HttpResponse × List EngineCall :=
  if isJson = false then
    ({ status := 400, body := [("error", JVal.jstr "Request must be JSON")] }, [])
  else if pyTruthy url = false then
    ({ status := 400, body := [("error", JVal.jstr "No URL provided")] }, [])
  else
    let u := url.getD ""
    let format_type := format_param.getD "bestvideo+bestaudio/best"
    let audio_only := audio_only_param.getD false
    let opts := downloadOpts token (get_user_agent t) format_type audio_only
    let call : EngineCall := { url := u, download := true, opts := opts }
    match engine u with
    | EngineResult.noInfo =>
      ({ status := 400,
         body := [("error", JVal.jstr "Failed to extract video information")] }, [call])
    | EngineResult.ok info =>
      if info.hasEntries then
        ({ status := 400,
           body := [("error", JVal.jstr "Playlists are not supported, please provide a single video URL")] },
         [call])
      else
        ({ status := 200,
           body := [("message", JVal.jstr "Download successful"),
             ("filename", JVal.jstr (publicFilename audio_only token info)),
             ("title", jOptStr info.title), ("duration", jOptNat info.duration),
             ("thumbnail", jOptStr info.thumbnail)] },
         [call])
    | EngineResult.downloadError m =>
      ({ status := 400, body := [("error", JVal.jstr ("Download failed: " ++ m))] }, [call])
    | EngineResult.extractorError m =>
      ({ status := 400, body := [("error", JVal.jstr ("URL extraction failed: " ++ m))] }, [call])
    | EngineResult.otherError m =>
      ({ status := 500, body := [("error", JVal.jstr ("An unexpected error occurred: " ++ m))] }, [call])

/-! Helper lemmas about the filename machinery. -/

theorem mem_of_mem_dropWhile {p : Char → Bool} {l : List Char} {c : Char}
    (h : c ∈ l.dropWhile p) : c ∈ l :=
  (List.dropWhile_suffix p).sublist.subset h

theorem mem_stripDotUnd {l : List Char} {c : Char} (h : c ∈ stripDotUnd l) : c ∈ l := by
  unfold stripDotUnd at h
  rw [List.mem_reverse] at h
  have h1 := mem_of_mem_dropWhile h
  rw [List.mem_reverse] at h1
  exact mem_of_mem_dropWhile h1

theorem dropWhile_head_false {p : Char → Bool} :
    ∀ (l : List Char) (c : Char) (cs : List Char), l.dropWhile p = c :: cs → p c = false := by
  intro l
  induction l with
  | nil => intro c cs h; simp [List.dropWhile] at h
  | cons a t ih =>
    intro c cs h
    by_cases hp : p a
    · rw [List.dropWhile_cons_of_pos hp] at h
      exact ih c cs h
    · rw [List.dropWhile_cons_of_neg hp] at h
      cases h
      simpa using hp

theorem stripDotUnd_head {l : List Char} {c : Char} {cs : List Char}
    (h : stripDotUnd l = c :: cs) : stripChar c = false := by
  obtain ⟨t, ht⟩ := List.dropWhile_suffix (l := (l.dropWhile stripChar).reverse) stripChar
  have hm : l.dropWhile stripChar = (c :: cs) ++ t.reverse := by
    have h2 := congrArg List.reverse ht
    simp only [List.reverse_append, List.reverse_reverse] at h2
    rw [show ((l.dropWhile stripChar).reverse.dropWhile stripChar).reverse = c :: cs from h] at h2
    exact h2.symm
  exact dropWhile_head_false l c (cs ++ t.reverse) hm

theorem secure_filename_allowed (s : String) :
    ∀ c ∈ (secure_filename s).data, allowedChar c = true := by
  intro c hc
  have h1 : c ∈ (List.intercalate ['_']
      (pySplitWs ((s.data.filter (fun c => c.toNat < 128)).map
        (fun c => if c = '/' then ' ' else c)))).filter allowedChar :=
    mem_stripDotUnd hc
  exact (List.mem_filter.mp h1).2

theorem safeChars_ok :
    ∀ c ∈ safeChars, 32 ≤ c.toNat ∧ c.toNat ≠ 127 ∧ c ≠ '/' ∧ c ≠ '\\' := by
  decide

theorem secure_filename_char_safe (s : String) :
    ∀ c ∈ (secure_filename s).data, 32 ≤ c.toNat ∧ c.toNat ≠ 127 ∧ c ≠ '/' ∧ c ≠ '\\' := by
  intro c hc
  exact safeChars_ok c (of_decide_eq_true (secure_filename_allowed s c hc))

theorem secure_filename_head_not_dot (s : String) {c : Char} {cs : List Char}
    (h : (secure_filename s).data = c :: cs) : c ≠ '.' ∧ c ≠ '_' := by
  have h1 : stripChar c = false := stripDotUnd_head h
  constructor <;> intro hc <;> subst hc <;> simp [stripChar] at h1

theorem secure_filename_ne_dotdot (s : String) : secure_filename s ≠ ".." := by
  intro h
  have hd : (secure_filename s).data = '.' :: ['.'] := by rw [h]
  exact (secure_filename_head_not_dot s hd).1 rfl

theorem lastIdxOf_append_ge {x y : List Char} {d : Nat}
    (hy : '.' ∈ y) (h : lastIdxOf '.' (x ++ y) = some d) : x.length ≤ d := by
  unfold lastIdxOf at h
  have hmem : '.' ∈ x ++ y := by simp [hy]
  rw [if_pos hmem] at h
  have hd : (x ++ y).length - 1 - ((x ++ y).reverse.indexOf '.') = d := by
    injection h
  have hrev : (x ++ y).reverse = y.reverse ++ x.reverse := by simp
  have hidx : (x ++ y).reverse.indexOf '.' = y.reverse.indexOf '.' := by
    rw [hrev]
    exact List.indexOf_append_of_mem (by simpa using hy)
  have hlt : y.reverse.indexOf '.' < y.length := by
    have h3 : y.reverse.indexOf '.' < y.reverse.length :=
      List.indexOf_lt_length.mpr (by simpa using hy)
    simpa using h3
  have hlen : (x ++ y).length = x.length + y.length := by simp
  omega

theorem splitextL_keeps_left {x y : List Char} (hy : '.' ∈ y) :
    ∃ r, (splitextL (x ++ y)).1 = x ++ r := by
  unfold splitextL
  cases h : lastIdxOf '.' (x ++ y) with
  | none => exact ⟨y, rfl⟩
  | some d =>
    have hxd : x.length ≤ d := lastIdxOf_append_ge hy h
    simp only []
    split
    · refine ⟨y.take (d - x.length), ?_⟩
      simp only []
      rw [List.take_append_eq_append_take, List.take_of_length_le hxd]
    · exact ⟨y, rfl⟩

theorem splitext_keeps_left (p q : String) (hq : '.' ∈ q.data) :
    ∃ r, (splitext (p ++ q)).1 = p ++ r := by
  obtain ⟨r, hr⟩ := splitextL_keeps_left (x := p.data) (y := q.data) hq
  refine ⟨String.mk r, ?_⟩
  apply String.ext
  rw [String.data_append]
  have hdata : (p ++ q).data = p.data ++ q.data := String.data_append p q
  unfold splitext
  rw [hdata, hr]

/-! Concrete sample data used by witnesses and counterexamples. -/

/-- An engine that always yields a None result. -/
def engNone : String → EngineResult := fun _ => EngineResult.noInfo

/-- A playlist-shaped metadata dictionary. -/
def infoPlaylist : Info := { hasEntries := true, title := some "Some Playlist" }

/-- An engine that always yields a playlist-shaped result. -/
def engPlaylist : String → EngineResult := fun _ => EngineResult.ok infoPlaylist

/-- A raw format record with a truthy extension but no media locator. -/
def fmtNoUrl : FmtDict :=
  { format_id := some "22", ext := some "mp4", resolution := some "1280x720" }

/-- A single-video result all of whose raw formats lack a media locator. -/
def infoNoUsable : Info :=
  { title := some "Test Video", duration := some 125, formats := some [fmtNoUrl] }

/-- An engine whose result has zero usable formats. -/
def engNoUsable : String → EngineResult := fun _ => EngineResult.ok infoNoUsable

/-! Claim theorems. -/

/-- C9: every call to the identity rotator get_user_agent returns a member
of the fixed three-element pool of user-agent strings; the time-derived
index is reduced modulo the pool length, so the selection is total and
never out of range. -/
theorem c9_user_agent_in_pool (t : Int) : get_user_agent t ∈ agents := by
  have h0 : 0 ≤ t % (3 : Int) := Int.emod_nonneg t (by decide)
  have h1 : t % (3 : Int) < 3 := Int.emod_lt_of_pos t (by decide)
  have hk : (t % (3 : Int)).toNat < 3 := by omega
  unfold get_user_agent
  have hcast : (agents.length : Int) = 3 := by norm_num [agents]
  rw [hcast]
  rcases (by omega :
      (t % (3 : Int)).toNat = 0 ∨ (t % (3 : Int)).toNat = 1 ∨ (t % (3 : Int)).toNat = 2) with
    h | h | h <;> rw [h] <;> simp [agents, List.getD]

/-- C4: for each endpoint, a request whose url parameter is absent or
empty is answered with HTTP 400 and an error body, and the external
extraction engine is never invoked. -/
theorem c4_missing_url_rejected (t : Int) (engine : String → EngineResult)
    (isJson : Bool) (fp : Option String) (ao : Option Bool) (tok : String)
    (url : Option String) (h : url = none ∨ url = some "") :
    (get_video_info t url engine).1.status = 400 ∧
    (get_video_info t url engine).2 = [] ∧
    (download_video isJson url fp ao tok t engine).1.status = 400 ∧
    (download_video isJson url fp ao tok t engine).2 = [] := by
  have htr : pyTruthy url = false := by rcases h with h | h <;> subst h <;> rfl
  cases isJson <;> simp [get_video_info, download_video, htr]

/-- Witness for C4 at the concrete input url = none. -/
theorem c4_missing_url_witness :
    (get_video_info 0 none engNone).1.status = 400 ∧
    (get_video_info 0 none engNone).2 = [] ∧
    (download_video true none none none "tok" 0 engNone).1.status = 400 ∧
    (download_video true none none none "tok" 0 engNone).2 = [] :=
  c4_missing_url_rejected 0 engNone true none none "tok" none (Or.inl rfl)

/-- C2 counterexample: for a playlist-shaped engine result, the download
endpoint rejects the request with 400, but its single engine invocation is
made in download mode (extract_info is called with download=True before
the playlist check), so the media download is requested for the playlist
— refuting the clause that no media is downloaded. -/
theorem c2_playlist_media_download_requested :
    (download_video true (some "u") none none "tok" 0 engPlaylist).1.status = 400 ∧
    (download_video true (some "u") none none "tok" 0 engPlaylist).2.map
      (fun c => c.download) = [true] :=
  ⟨rfl, rfl⟩

/-- C2 (amended): for a playlist-shaped engine result both endpoints
terminate immediately with HTTP 400, after exactly one engine invocation,
with no retry or escalation and no formats in the response; the info
endpoint's invocation carries no download request, but the download
endpoint's single invocation is made in download mode before the playlist
check. -/
theorem c2_playlist_terminal_amended (t : Int) (engine : String → EngineResult)
    (u : String) (hu : u ≠ "") (info : Info) (he : engine u = EngineResult.ok info)
    (hp : info.hasEntries = true) (fp : Option String) (ao : Option Bool) (tok : String) :
    (get_video_info t (some u) engine).1.status = 400 ∧
    (get_video_info t (some u) engine).2.length = 1 ∧
    (∀ c ∈ (get_video_info t (some u) engine).2, c.download = false) ∧
    jlookup "available_formats" (get_video_info t (some u) engine).1.body = none ∧
    (download_video true (some u) fp ao tok t engine).1.status = 400 ∧
    (download_video true (some u) fp ao tok t engine).2.length = 1 ∧
    (∀ c ∈ (download_video true (some u) fp ao tok t engine).2, c.download = true) := by
  have htr : pyTruthy (some u) = true := by simp [pyTruthy, hu]
  simp [get_video_info, download_video, htr, he, hp, jlookup]

/-- Witness for C2 (amended) at a concrete playlist result. -/
theorem c2_playlist_terminal_witness :
    (get_video_info 0 (some "u") engPlaylist).1.status = 400 ∧
    (get_video_info 0 (some "u") engPlaylist).2.length = 1 ∧
    (∀ c ∈ (get_video_info 0 (some "u") engPlaylist).2, c.download = false) ∧
    jlookup "available_formats" (get_video_info 0 (some "u") engPlaylist).1.body = none ∧
    (download_video true (some "u") none none "tok" 0 engPlaylist).1.status = 400 ∧
    (download_video true (some "u") none none "tok" 0 engPlaylist).2.length = 1 ∧
    (∀ c ∈ (download_video true (some "u") none none "tok" 0 engPlaylist).2, c.download = true) :=
  c2_playlist_terminal_amended 0 engPlaylist "u" (by decide) infoPlaylist rfl rfl none none "tok"

/-- C3 counterexample: when the only strategy the code has yields a result
with zero usable formats, the request does not end in a fatal
NoUsableFormats failure — the info endpoint answers 200 with an empty
available_formats list. -/
theorem c3_zero_formats_success :
    (get_video_info 0 (some "u") engNoUsable).1.status = 200 ∧
    jlookup "available_formats" (get_video_info 0 (some "u") engNoUsable).1.body =
      some (JVal.jlist []) :=
  ⟨rfl, rfl⟩

/-- C3 (amended): the code implements a single strategy tier and performs
exactly one engine invocation per request, so the Plain-to-Augmented
transition never occurs at all (zero times, trivially at most once); there
is no Augmented tier, and exhaustion with zero usable formats is not a
fatal NoUsableFormats failure: the info endpoint returns 200 with an empty
formats list. -/
theorem c3_single_attempt_amended (t : Int) (engine : String → EngineResult)
    (u : String) (hu : u ≠ "") (info : Info) (he : engine u = EngineResult.ok info)
    (hp : info.hasEntries = false) (fs : List FmtDict) (hf : info.formats = some fs)
    (hun : fs.filter usableFmt = []) (fp : Option String) (ao : Option Bool) (tok : String) :
    (get_video_info t (some u) engine).2.length = 1 ∧
    (download_video true (some u) fp ao tok t engine).2.length = 1 ∧
    (get_video_info t (some u) engine).1.status = 200 ∧
    jlookup "available_formats" (get_video_info t (some u) engine).1.body =
      some (JVal.jlist []) := by
  have htr : pyTruthy (some u) = true := by simp [pyTruthy, hu]
  simp [get_video_info, download_video, htr, he, hp, hf, jlookup, formatFilter, hun]

/-- Witness for C3 (amended) at a concrete zero-usable-format result. -/
theorem c3_single_attempt_witness :
    (get_video_info 0 (some "u") engNoUsable).2.length = 1 ∧
    (download_video true (some "u") none none "tok" 0 engNoUsable).2.length = 1 ∧
    (get_video_info 0 (some "u") engNoUsable).1.status = 200 ∧
    jlookup "available_formats" (get_video_info 0 (some "u") engNoUsable).1.body =
      some (JVal.jlist []) :=
  c3_single_attempt_amended 0 engNoUsable "u" (by decide) infoNoUsable rfl rfl
    [fmtNoUrl] rfl (by decide) none none "tok"

/-- C7 counterexample: when extraction yields nothing (a None result), the
info endpoint answers 400, not the 404 the claim states; classified engine
failures also map to 400, not 502. -/
theorem c7_none_maps_to_400 :
    (get_video_info 0 (some "u") engNone).1.status = 400 ∧
    (get_video_info 0 (some "u") engNone).1.status ≠ 404 :=
  ⟨rfl, by decide⟩

/-- C7 (amended): the info endpoint maps a None extraction result to 400
(not 404), classified engine failures (DownloadError, ExtractorError) to
400 (not 502), and only unclassified failures to 500; successes map to 200
and playlist-shaped results to 400. -/
theorem c7_info_status_amended (t : Int) (engine : String → EngineResult)
    (u : String) (hu : u ≠ "") :
    (get_video_info t (some u) engine).1.status =
      match engine u with
      | EngineResult.ok info => if info.hasEntries then 400 else 200
      | EngineResult.noInfo => 400
      | EngineResult.downloadError _ => 400
      | EngineResult.extractorError _ => 400
      | EngineResult.otherError _ => 500 := by
  have htr : pyTruthy (some u) = true := by simp [pyTruthy, hu]
  cases he : engine u <;> simp [get_video_info, htr, he]
  split <;> rfl

/-- Witness for C7 (amended) at a concrete None result. -/
theorem c7_info_status_witness :
    (get_video_info 0 (some "u") engNone).1.status =
      match engNone "u" with
      | EngineResult.ok info => if info.hasEntries then 400 else 200
      | EngineResult.noInfo => 400
      | EngineResult.downloadError _ => 400
      | EngineResult.extractorError _ => 400
      | EngineResult.otherError _ => 500 :=
  c7_info_status_amended 0 engNone "u" (by decide)

/-- A raw format record whose extension is not among the known container
extensions but whose ext and url values are truthy. -/
def fmtFlv : FmtDict :=
  { format_id := some "5", ext := some "flv", resolution := some "400x240",
    url := some "http-media-locator" }

/-- A raw format record with both a truthy extension and a truthy media
locator. -/
def fmtGood : FmtDict :=
  { format_id := some "18", ext := some "mp4", resolution := some "640x360",
    filesize := some 1048576, url := some "http-media-locator" }

/-- A single-video metadata result without a formats key. -/
def infoPlainMeta : Info :=
  { title := some "Test Video", duration := some 125,
    thumbnail := some "http-thumb", uploader := some "someone",
    view_count := some 42, webpage_url := some "http-page", ext := some "mp4" }

/-- An engine returning metadata without a formats key. -/
def engPlainMeta : String → EngineResult := fun _ => EngineResult.ok infoPlainMeta

/-- C5 counterexample: a record whose extension (flv) is not a known
container extension is nevertheless kept by the filter, because the code
only tests that the ext value is truthy; the projection moreover carries a
fifth key, format_note. -/
theorem c5_unknown_extension_kept :
    formatFilter [fmtFlv] = [projectFmt fmtFlv] ∧
    ALLOWED_EXTENSIONS.contains "flv" = false ∧
    fmtFlv.ext = some "flv" :=
  ⟨rfl, rfl, rfl⟩

/-- C5 (amended): the filter output contains exactly the projections of
those input records whose ext and url values are truthy — presence, not
membership in a known-extension set, is what is checked — each projected
to the shape with keys format_id, ext, resolution, filesize and
format_note; consequently every record in the output arises from an input
record possessing a media locator. -/
theorem c5_filter_membership_amended (l : List FmtDict) (x : FmtDict) :
    x ∈ formatFilter l ↔
      ∃ r, r ∈ l ∧ pyTruthy r.ext = true ∧ pyTruthy r.url = true ∧ x = projectFmt r := by
  unfold formatFilter
  constructor
  · intro hx
    rw [List.mem_map] at hx
    obtain ⟨r, hr, hx⟩ := hx
    rw [List.mem_filter] at hr
    have hu := hr.2
    unfold usableFmt at hu
    rw [Bool.and_eq_true] at hu
    exact ⟨r, hr.1, hu.1, hu.2, hx.symm⟩
  · rintro ⟨r, hr, he, hu2, hx⟩
    rw [List.mem_map]
    refine ⟨r, List.mem_filter.mpr ⟨hr, ?_⟩, hx.symm⟩
    unfold usableFmt
    rw [Bool.and_eq_true]
    exact ⟨he, hu2⟩

/-- C6 counterexample: the filter is not idempotent on its own output.
Its projection emits dictionaries without a url key, so applying the
filter to its own output discards every record. -/
theorem c6_not_idempotent_counterexample :
    formatFilter (formatFilter [fmtGood]) = [] ∧ formatFilter [fmtGood] ≠ [] :=
  ⟨rfl, by decide⟩

/-- C6 (amended): the filter is pure and order-preserving — the selection
it makes is a sublist of the input and the filter distributes over
concatenation — and it maps the empty sequence to the empty sequence; but
it is not idempotent on its own output: because the projection drops the
media locator, a second application always yields the empty list. -/
theorem c6_filter_algebra_amended :
    formatFilter [] = [] ∧
    (∀ l₁ l₂ : List FmtDict, formatFilter (l₁ ++ l₂) = formatFilter l₁ ++ formatFilter l₂) ∧
    (∀ l : List FmtDict, List.Sublist (l.filter usableFmt) l) ∧
    (∀ l : List FmtDict, formatFilter (formatFilter l) = []) := by
  refine ⟨rfl, ?_, ?_, ?_⟩
  · intro l₁ l₂
    unfold formatFilter
    rw [List.filter_append, List.map_append]
  · intro l
    exact List.filter_sublist l
  · intro l
    unfold formatFilter
    have hnone : ∀ x ∈ (l.filter usableFmt).map projectFmt, usableFmt x = false := by
      intro x hx
      rw [List.mem_map] at hx
      obtain ⟨r, _, hr⟩ := hx
      rw [← hr]
      unfold usableFmt projectFmt pyTruthy
      simp
    rw [List.filter_eq_nil_iff.mpr (by intro a ha; rw [hnone a ha]; simp)]
    rfl

/-- C10: every successful info response has status 200, its body carries
exactly the keys title, duration, thumbnail, uploader, view_count,
webpage_url and available_formats in that order, and when the engine
result has no formats key, available_formats is the empty list rather than
absent or an error. -/
theorem c10_info_success_shape (t : Int) (engine : String → EngineResult)
    (u : String) (hu : u ≠ "") (info : Info) (he : engine u = EngineResult.ok info)
    (hp : info.hasEntries = false) :
    (get_video_info t (some u) engine).1.status = 200 ∧
    (get_video_info t (some u) engine).1.body.map (fun p => p.1) =
      ["title", "duration", "thumbnail", "uploader", "view_count", "webpage_url",
       "available_formats"] ∧
    (info.formats = none →
      jlookup "available_formats" (get_video_info t (some u) engine).1.body =
        some (JVal.jlist [])) := by
  have htr : pyTruthy (some u) = true := by simp [pyTruthy, hu]
  refine ⟨?_, ?_, ?_⟩
  · simp [get_video_info, htr, he, hp]
  · simp [get_video_info, htr, he, hp]
  · intro hf
    simp [get_video_info, htr, he, hp, hf, jlookup]

/-- Witness for C10 at a concrete result with no formats key. -/
theorem c10_info_success_witness :
    (get_video_info 0 (some "u") engPlainMeta).1.status = 200 ∧
    (get_video_info 0 (some "u") engPlainMeta).1.body.map (fun p => p.1) =
      ["title", "duration", "thumbnail", "uploader", "view_count", "webpage_url",
       "available_formats"] ∧
    (infoPlainMeta.formats = none →
      jlookup "available_formats" (get_video_info 0 (some "u") engPlainMeta).1.body =
        some (JVal.jlist [])) :=
  c10_info_success_shape 0 engPlainMeta "u" (by decide) infoPlainMeta rfl rfl

/-- The prepared filename decomposes into the token-bearing directory part
followed by title, dot, extension. -/
theorem prepFilename_decomp (token : String) (info : Info) :
    prepFilename token info =
      (DOWNLOAD_FOLDER ++ "/" ++ token ++ "_") ++
        (info.title.getD "NA" ++ ("." ++ info.ext.getD "NA")) := by
  unfold prepFilename
  apply String.ext
  simp [List.append_assoc]

/-- C8: for a download request with audio_only true, the strategy passed
to the engine selects bestaudio/best with the FFmpegExtractAudio
post-processing directive targeting mp3 at quality 192, and the finalized
on-disk filename has its extension rewritten to .mp3, whose sanitized
basename is what the response returns. -/
theorem c8_audio_only_strategy (t : Int) (engine : String → EngineResult)
    (u : String) (hu : u ≠ "") (info : Info) (he : engine u = EngineResult.ok info)
    (hp : info.hasEntries = false) (tok : String) (fp : Option String) :
    (download_video true (some u) fp (some true) tok t engine).2.map
      (fun c => c.opts.format) = [some "bestaudio/best"] ∧
    (download_video true (some u) fp (some true) tok t engine).2.map
      (fun c => c.opts.postprocessors) =
      [[{ key := "FFmpegExtractAudio", preferredcodec := "mp3", preferredquality := "192" }]] ∧
    (∃ root : String, finalizedFilename true tok info = root ++ ".mp3") ∧
    jlookup "filename" (download_video true (some u) fp (some true) tok t engine).1.body =
      some (JVal.jstr (publicFilename true tok info)) := by
  have htr : pyTruthy (some u) = true := by simp [pyTruthy, hu]
  refine ⟨?_, ?_, ?_, ?_⟩
  · simp [download_video, htr, he, hp, downloadOpts]
  · simp [download_video, htr, he, hp, downloadOpts]
  · refine ⟨(splitext (prepFilename tok info)).1, ?_⟩
    simp [finalizedFilename, hp]
  · simp [download_video, htr, he, hp, jlookup]

/-- Witness for C8 at a concrete single-video result. -/
theorem c8_audio_only_witness :
    (download_video true (some "u") none (some true) "tok" 0 engPlainMeta).2.map
      (fun c => c.opts.format) = [some "bestaudio/best"] ∧
    (download_video true (some "u") none (some true) "tok" 0 engPlainMeta).2.map
      (fun c => c.opts.postprocessors) =
      [[{ key := "FFmpegExtractAudio", preferredcodec := "mp3", preferredquality := "192" }]] ∧
    (∃ root : String, finalizedFilename true "tok" infoPlainMeta = root ++ ".mp3") ∧
    jlookup "filename" (download_video true (some "u") none (some true) "tok" 0 engPlainMeta).1.body =
      some (JVal.jstr (publicFilename true "tok" infoPlainMeta)) :=
  c8_audio_only_strategy 0 engPlainMeta "u" (by decide) infoPlainMeta rfl rfl "tok" none

/-- C1: for every download request that succeeds, the public filename
contains no path separators, no control characters (and is not a
parent-directory reference: it has no separators and is never the string
dot-dot), and the on-disk output name places the freshly generated
uniqueness token at the start of the filename inside the downloads
directory, followed (in the non-rewritten case) by the title and
extension. -/
theorem c1_download_filename_safety (token : String) (info : Info) (ao : Bool) :
    (∀ c ∈ (publicFilename ao token info).data,
      32 ≤ c.toNat ∧ c.toNat ≠ 127 ∧ c ≠ '/' ∧ c ≠ '\\') ∧
    publicFilename ao token info ≠ ".." ∧
    (∃ rest : String, finalizedFilename ao token info =
      DOWNLOAD_FOLDER ++ "/" ++ token ++ "_" ++ rest) ∧
    finalizedFilename false token info =
      DOWNLOAD_FOLDER ++ "/" ++ token ++ "_" ++
        (info.title.getD "NA" ++ ("." ++ info.ext.getD "NA")) := by
  refine ⟨?_, ?_, ?_, ?_⟩
  · intro c hc
    exact secure_filename_char_safe (basename (finalizedFilename ao token info)) c hc
  · exact secure_filename_ne_dotdot (basename (finalizedFilename ao token info))
  · by_cases hcase : (ao && !info.hasEntries) = true
    · have hq : '.' ∈ (info.title.getD "NA" ++ ("." ++ info.ext.getD "NA")).data := by
        simp
      obtain ⟨r, hr⟩ :=
        splitext_keeps_left (DOWNLOAD_FOLDER ++ "/" ++ token ++ "_")
          (info.title.getD "NA" ++ ("." ++ info.ext.getD "NA")) hq
      refine ⟨r ++ ".mp3", ?_⟩
      unfold finalizedFilename
      rw [if_pos hcase, prepFilename_decomp, hr, String.append_assoc]
    · refine ⟨info.title.getD "NA" ++ ("." ++ info.ext.getD "NA"), ?_⟩
      unfold finalizedFilename
      rw [if_neg hcase]
      exact prepFilename_decomp token info
  · have hfalse : (false && !info.hasEntries) = false := rfl
    unfold finalizedFilename
    rw [if_neg (by rw [hfalse]; exact Bool.false_ne_true)]
    exact prepFilename_decomp token info

end YoutubApp
